import Mathlib

/-!
Verification of the `no-extraneous-dependencies` rule
(src/rules/no-extraneous-dependencies.js).

The rule's own code is embedded faithfully below.  External collaborators
that are not part of this repository's source (`read-pkg-up`, the module
resolver, the import-type classifier, `minimatch`, `path.join`) are either
taken as parameters of the embedded functions (their results are inputs) or
modelled from the spec where a definition is unavoidable; each such spot is
marked in its doc comment.
-/

/-- A JavaScript object used as a string-keyed map.  Only key lookup and
`Object.assign`-style overriding are ever observed by the rule, so it is
embedded as an association list whose lookup takes the first match. -/
abbrev JsObj := List (String × String)

/-- Key lookup in a `JsObj`: the JS expression `obj[key]`, `none` standing
for `undefined`. -/
def jsLookup (o : JsObj) (k : String) : Option String :=
  match o with
  | [] => none
  | (k', v) :: rest => if k' = k then some v else jsLookup rest k

/-- `Object.assign(target, source)`: the resulting object answers lookups
from `source` first and falls back to `target`.  Embedded by its observable
lookup behaviour: the source entries are placed in front of the target's. -/
def objAssign (target source : JsObj) : JsObj :=
  source ++ target

/-- `hasKeys` from the rule: `Object.keys(obj).length > 0`. -/
def hasKeys (o : JsObj) : Bool :=
  !o.isEmpty

/-- A parsed `package.json` as the rule consumes it: the four dependency
categories, each possibly absent. -/
structure Pkg where
  dependencies : Option JsObj
  devDependencies : Option JsObj
  optionalDependencies : Option JsObj
  peerDependencies : Option JsObj
deriving DecidableEq, Repr

/-- The aggregated dependency table (`deps` in the rule). -/
structure DepFields where
  dependencies : JsObj
  devDependencies : JsObj
  optionalDependencies : JsObj
  peerDependencies : JsObj
deriving DecidableEq, Repr

/-- `extractDepFields` from the rule: missing categories default to `{}`. -/
def extractDepFields (pkg : Pkg) : DepFields :=
  { dependencies := pkg.dependencies.getD []
    devDependencies := pkg.devDependencies.getD []
    optionalDependencies := pkg.optionalDependencies.getD []
    peerDependencies := pkg.peerDependencies.getD [] }

/-- `assignDeps(fromDeps, toDeps)` from the rule: `Object.assign` of each of
the four categories of `toDeps` onto `fromDeps`.  The mutation of `fromDeps`
is embedded as returning the updated value. -/
def assignDeps (fromDeps toDeps : DepFields) : DepFields :=
  { dependencies := objAssign fromDeps.dependencies toDeps.dependencies
    devDependencies := objAssign fromDeps.devDependencies toDeps.devDependencies
    peerDependencies := objAssign fromDeps.peerDependencies toDeps.peerDependencies
    optionalDependencies := objAssign fromDeps.optionalDependencies toDeps.optionalDependencies }

/-- JavaScript `name.split('/')` on the character list of the string:
splitting on `'/'` always yields at least one (possibly empty) segment. -/
def splitSlash : List Char → List (List Char)
  | [] => [[]]
  | c :: rest =>
    if c = '/' then [] :: splitSlash rest
    else
      match splitSlash rest with
      | [] => [[c]]
      | s :: ss => (c :: s) :: ss

/-- JavaScript `segments.join('/')`. -/
def joinSlash : List (List Char) → List Char
  | [] => []
  | [s] => s
  | s :: rest => s ++ '/' :: joinSlash rest

/-- Package-name extraction on the segment list, as in the rule:
`splitName[0][0] === '@' ? splitName.slice(0, 2).join('/') : splitName[0]`. -/
def extractPackageNameSegs (segs : List (List Char)) : List Char :=
  if (segs.headD []).head? = some '@' then joinSlash (segs.take 2)
  else segs.headD []

/-- Package-name extraction from a specifier string (lines 108–111 of the
rule). -/
def extractPackageName (name : String) : String :=
  String.mk (extractPackageNameSegs (splitSlash name.data))

/-- `missingErrorMessage` from the rule. -/
def missingErrorMessage (packageName : String) : String :=
  "'" ++ packageName ++ "' should be listed in the project's dependencies. " ++
    "Run 'npm i -S " ++ packageName ++ "' to add it"

/-- `devDepErrorMessage` from the rule. -/
def devDepErrorMessage (packageName : String) : String :=
  "'" ++ packageName ++ "' should be listed in the project's dependencies, not devDependencies."

/-- `optDepErrorMessage` from the rule. -/
def optDepErrorMessage (packageName : String) : String :=
  "'" ++ packageName ++ "' should be listed in the project's dependencies, " ++
    "not optionalDependencies."

/-- The per-file allow policy (`depsOptions` in the rule). -/
structure DepsOptions where
  allowDevDeps : Bool
  allowOptDeps : Bool
  allowPeerDeps : Bool
deriving DecidableEq, Repr

/-- The outcome of `reportIfMissing` for one specifier: `skip` for the three
early returns before the table lookup, `allow` for the policy-accepting
return, `report m` for `context.report(node, m)`. -/
inductive Verdict where
  | skip
  | allow
  | report (message : String)
deriving DecidableEq, Repr

/-- `reportIfMissing` from the rule.  `importKind` is `node.importKind`,
`importTypeResult` the result of the external classifier `importType(name,
context)`, and `resolved` the truthiness of `resolve(name, context)` — the
latter two are external collaborators, so their results are parameters. -/
def reportIfMissing (deps : DepFields) (depsOptions : DepsOptions)
    (importKind : Option String) (importTypeResult : String) (resolved : Bool)
    (name : String) : Verdict :=
  if importKind = some "type" then Verdict.skip
  else if importTypeResult ≠ "external" then Verdict.skip
  else if !resolved then Verdict.skip
  else
    let packageName := extractPackageName name
    let isInDeps := (jsLookup deps.dependencies packageName).isSome
    let isInDevDeps := (jsLookup deps.devDependencies packageName).isSome
    let isInOptDeps := (jsLookup deps.optionalDependencies packageName).isSome
    let isInPeerDeps := (jsLookup deps.peerDependencies packageName).isSome
    if isInDeps || (depsOptions.allowDevDeps && isInDevDeps)
        || (depsOptions.allowPeerDeps && isInPeerDeps)
        || (depsOptions.allowOptDeps && isInOptDeps) then
      Verdict.allow
    else if isInDevDeps && !depsOptions.allowDevDeps then
      Verdict.report (devDepErrorMessage packageName)
    else if isInOptDeps && !depsOptions.allowOptDeps then
      Verdict.report (optDepErrorMessage packageName)
    else
      Verdict.report (missingErrorMessage packageName)

/-- A thrown JavaScript error as the rule's `catch` block inspects it:
`e.code`, `e.name`, `e instanceof SyntaxError`, `e.message`. -/
structure JsError where
  code : Option String
  name : String
  isSyntaxError : Bool
  message : String
deriving DecidableEq, Repr

/-- A reported diagnostic: message plus the `loc` it is attached to. -/
structure Diagnostic where
  message : String
  line : Nat
  column : Nat
deriving DecidableEq, Repr

/-- The filesystem-facing collaborators of `getDependencies`, which are
external to the rule.  `closest` is `readPkgUp.sync({cwd: filename})`:
either the nearest manifest's path and parsed content, or the error it
throws.  Modelled from the spec: `read-pkg-up` is not under src/, and the
spec says a missing manifest at step 1 is the "could not be found" failure,
so its not-found outcome is an error whose `code` is `"ENOENT"`; a malformed
nearest manifest surfaces as a parse error (`name = "JSONError"`).
`readFile` is `JSON.parse(fs.readFileSync(path))` for a configured
directory's manifest, throwing `ENOENT`, a `SyntaxError`, or another I/O
error. -/
structure Env where
  closest : Except JsError (String × Pkg)
  readFile : String → Except JsError Pkg

/-- `path.resolve(dir, 'package.json')`.  Modelled from Node's `path`
module (not repository code) for an absolute `dir` without a trailing
slash; only its injectiveness on equal directories matters to the rule. -/
def pkgFilePath (dir : String) : String :=
  dir ++ "/package.json"

/-- The `reduce` loop of `getDependencies` (lines 37–51): for each
configured directory, skip it when its manifest path was already consulted
(`files.indexOf(pkgFile) === -1`), otherwise read, parse and merge; a
thrown error aborts the loop. -/
def getDepsLoop (env : Env) (files : List String) (acc : DepFields) :
    List String → Except JsError DepFields
  | [] => Except.ok acc
  | dir :: rest =>
    if pkgFilePath dir ∈ files then getDepsLoop env files acc rest
    else
      match env.readFile (pkgFilePath dir) with
      | Except.error e => Except.error e
      | Except.ok pkg =>
          getDepsLoop env (files ++ [pkgFilePath dir])
            (assignDeps acc (extractDepFields pkg)) rest

/-- The `catch` block of `getDependencies` (lines 61–78): `ENOENT` becomes
the not-found message, a `JSONError`/`SyntaxError` the parse message with
the error's own message appended, anything else the error's message; all at
`loc: { line: 0, column: 0 }`. -/
def catchReport (e : JsError) : Diagnostic :=
  if e.code = some "ENOENT" then
    { message := "The package.json file could not be found.", line := 0, column := 0 }
  else if e.name = "JSONError" ∨ e.isSyntaxError then
    { message := "The package.json file could not be parsed: " ++ e.message
      line := 0, column := 0 }
  else
    { message := e.message, line := 0, column := 0 }

/-- `getDependencies` from the rule: the returned table (`none` when the
function returns `undefined`) together with the file-level diagnostics it
reports. -/
def getDependencies (env : Env) (packageDir : List String) :
    Option DepFields × List Diagnostic :=
  match env.closest with
  | Except.error e => (none, [catchReport e])
  | Except.ok (closestPath, pkg) =>
    match getDepsLoop env [closestPath] (extractDepFields pkg) packageDir with
    | Except.error e => (none, [catchReport e])
    | Except.ok deps =>
      if hasKeys deps.dependencies || hasKeys deps.devDependencies
          || hasKeys deps.optionalDependencies || hasKeys deps.peerDependencies then
        (some deps, [])
      else
        (none, [])

/-- Splitting a string on `'/'` into segment strings. -/
def splitSlashStr (s : String) : List String :=
  (splitSlash s.data).map String.mk

/-- Modelled from the spec: the `minimatch` library is not under src/.
Segment-wise glob matching on `'/'`-separated paths: `**` matches any
(possibly empty) run of segments, `*` matches exactly one segment, and any
other pattern segment must equal the path segment literally.  The fuel
argument only makes the recursion structural; every step shrinks
`ps.length + segs.length`, so any fuel above that bound is enough. -/
def globSegsMatchFuel : Nat → List String → List String → Bool
  | 0, _, _ => false
  | _ + 1, [], [] => true
  | _ + 1, [], _ :: _ => false
  | n + 1, p :: ps, [] => if p = "**" then globSegsMatchFuel n ps [] else false
  | n + 1, p :: ps, s :: rest =>
    if p = "**" then
      globSegsMatchFuel n ps (s :: rest) || globSegsMatchFuel n (p :: ps) rest
    else
      (p == "*" || p == s) && globSegsMatchFuel n ps rest

/-- Glob matching of a pattern segment list against a path segment list. -/
def globSegsMatch (ps segs : List String) : Bool :=
  globSegsMatchFuel (ps.length + segs.length + 1) ps segs

/-- Modelled from the spec: `minimatch(filePath, pattern)`. -/
def minimatch (filePath pattern : String) : Bool :=
  globSegsMatch (splitSlashStr pattern) (splitSlashStr filePath)

/-- Modelled from Node's `path.join(cwd, c)` (not repository code) for an
absolute `cwd` without a trailing slash and a relative pattern. -/
def pathJoin (a b : String) : String :=
  a ++ "/" ++ b

/-- A rule option value: absent (`undefined`), a boolean, or a glob list. -/
inductive Config where
  | none
  | bool (b : Bool)
  | globs (patterns : List String)
deriving DecidableEq, Repr

/-- `testConfig` from the rule: a boolean or `undefined` is returned as-is;
a glob list tests the filename against each pattern directly and joined
onto the working directory. -/
def testConfig (cwd : String) (config : Config) (filename : String) : Option Bool :=
  match config with
  | Config.none => Option.none
  | Config.bool b => some b
  | Config.globs cs =>
      some (cs.any fun c => minimatch filename c || minimatch filename (pathJoin cwd c))

/-- The rule's recognized options object. -/
structure RuleOptions where
  devDependencies : Config
  optionalDependencies : Config
  peerDependencies : Config
  packageDir : List String

/-- One import/require site the AST walker hands to the rule: the node's
`importKind`, the external classifier's verdict, the resolver's success,
the specifier string, and the node's location. -/
structure ImportSite where
  importKind : Option String
  importTypeResult : String
  resolved : Bool
  name : String
  line : Nat
  column : Nat
deriving DecidableEq, Repr

/-- The `create` function of the rule applied to one file: build the table
(reporting its failures), return `{}` (no further work) when there is none,
otherwise compute the per-file policy (`testConfig(...) !== false`) and run
`reportIfMissing` on every import/require site, collecting the reports at
their nodes' locations. -/
def runRule (env : Env) (cwd : String) (options : RuleOptions) (filename : String)
    (imports : List ImportSite) : List Diagnostic :=
  match getDependencies env options.packageDir with
  | (Option.none, diags) => diags
  | (some deps, diags) =>
    let depsOptions : DepsOptions :=
      { allowDevDeps := testConfig cwd options.devDependencies filename ≠ some false
        allowOptDeps := testConfig cwd options.optionalDependencies filename ≠ some false
        allowPeerDeps := testConfig cwd options.peerDependencies filename ≠ some false }
    diags ++ imports.filterMap fun imp =>
      match reportIfMissing deps depsOptions imp.importKind imp.importTypeResult
          imp.resolved imp.name with
      | Verdict.report m => some { message := m, line := imp.line, column := imp.column }
      | _ => Option.none

/-- A table whose only entry is the runtime dependency `left-pad`. -/
def leftPadDeps : DepFields :=
  { dependencies := [("left-pad", "^1.3.0")]
    devDependencies := []
    optionalDependencies := []
    peerDependencies := [] }

/-- Sample manifests and environments used by the witnesses. -/
def samplePkg : Pkg :=
  ⟨some [("lodash", "^4.0.0")], Option.none, Option.none, Option.none⟩

/-- A second manifest, as found in a configured directory. -/
def otherPkg : Pkg :=
  ⟨some [("left-pad", "^1.3.0")], Option.none, Option.none, Option.none⟩

/-- A manifest declaring nothing at all. -/
def emptyPkg : Pkg :=
  ⟨Option.none, Option.none, Option.none, Option.none⟩

/-- A manifest declaring `jest` as a development dependency only. -/
def devPkg : Pkg :=
  ⟨Option.none, some [("jest", "^27.0.0")], Option.none, Option.none⟩

/-- The error thrown for a missing file. -/
def notFoundErr : JsError :=
  ⟨some "ENOENT", "Error", false, "ENOENT: no such file or directory"⟩

/-- The error thrown for malformed JSON. -/
def parseErr : JsError :=
  ⟨Option.none, "JSONError", false, "Unexpected end of JSON input"⟩

/-- An environment whose nearest manifest is at `/proj` and where only
`/other/package.json` exists besides it. -/
def sampleEnv : Env :=
  { closest := Except.ok ("/proj/package.json", samplePkg)
    readFile := fun p =>
      if p = "/other/package.json" then Except.ok otherPkg
      else Except.error notFoundErr }

/-- An environment with no manifest anywhere above the file. -/
def noManifestEnv : Env :=
  { closest := Except.error notFoundErr
    readFile := fun _ => Except.error notFoundErr }

/-- An environment whose nearest manifest is malformed. -/
def badJsonEnv : Env :=
  { closest := Except.error parseErr
    readFile := fun _ => Except.error parseErr }

/-- An environment whose nearest manifest declares no dependencies. -/
def emptyManifestEnv : Env :=
  { closest := Except.ok ("/proj/package.json", emptyPkg)
    readFile := fun _ => Except.error notFoundErr }

/-- An environment whose nearest manifest is `devPkg`. -/
def devProjEnv : Env :=
  { closest := Except.ok ("/proj/package.json", devPkg)
    readFile := fun _ => Except.error notFoundErr }

/-- A default (empty) options object. -/
def defaultOpts : RuleOptions :=
  ⟨Config.none, Config.none, Config.none, []⟩

/-- Options restricting dev imports to files under `test/`. -/
def globOpts : RuleOptions :=
  ⟨Config.globs ["test/**"], Config.none, Config.none, []⟩

/-- An import of `left-pad`, external and resolvable, at line 3. -/
def sampleImport : ImportSite :=
  ⟨Option.none, "external", true, "left-pad", 3, 0⟩

/-- An import of `jest`, external and resolvable, at line 1. -/
def jestImport : ImportSite :=
  ⟨Option.none, "external", true, "jest", 1, 0⟩

/-- A sample dependency table with one entry in each category. -/
def sampleDeps : DepFields :=
  { dependencies := [("lodash", "^4.0.0")]
    devDependencies := [("jest", "^27.0.0")]
    optionalDependencies := [("fsevents", "^2.0.0")]
    peerDependencies := [("react", "^17.0.0")] }

/-- A table whose only entry is a development dependency. -/
def devOnlyDeps : DepFields :=
  { dependencies := []
    devDependencies := [("jest", "^27.0.0")]
    optionalDependencies := []
    peerDependencies := [] }

/-- A table whose only entry is an optional dependency. -/
def optOnlyDeps : DepFields :=
  { dependencies := []
    devDependencies := []
    optionalDependencies := [("fsevents", "^2.0.0")]
    peerDependencies := [] }

/-- A table whose only entry is a peer dependency. -/
def peerOnlyDeps : DepFields :=
  { dependencies := []
    devDependencies := []
    optionalDependencies := []
    peerDependencies := [("react", "^17.0.0")] }

/-- C1: a package name present in the runtime `dependencies` category makes
`reportIfMissing` return `allow` on any non-type-only, external, resolvable
specifier extracting to that name, for every dev/optional/peer allow-policy
and whatever the other categories contain. -/
theorem runtime_dependency_always_allowed
    (deps : DepFields) (o : DepsOptions) (ik : Option String) (name : String)
    (hik : ik ≠ some "type")
    (hdep : (jsLookup deps.dependencies (extractPackageName name)).isSome = true) :
    reportIfMissing deps o ik "external" true name = Verdict.allow := by
  simp [reportIfMissing, hik, hdep]

/-- Witness for C1: `lodash/fp` is allowed because `lodash` is a runtime
dependency, even with every policy flag off and `lodash` also listed
nowhere else. -/
theorem runtime_dependency_always_allowed_witness :
    reportIfMissing sampleDeps ⟨false, false, false⟩ Option.none "external" true "lodash/fp" =
      Verdict.allow :=
  runtime_dependency_always_allowed sampleDeps ⟨false, false, false⟩ Option.none "lodash/fp"
    (by decide) (by decide)

/-- C2: a package name present only in `devDependencies` is allowed exactly
when the effective `allowDevDeps` is true; otherwise `reportIfMissing`
reports the dev-specific message with the extracted package name. -/
theorem dev_only_dependency_policy
    (deps : DepFields) (o : DepsOptions) (ik : Option String) (name : String)
    (hik : ik ≠ some "type")
    (hdev : (jsLookup deps.devDependencies (extractPackageName name)).isSome = true)
    (hnd : jsLookup deps.dependencies (extractPackageName name) = Option.none)
    (hno : jsLookup deps.optionalDependencies (extractPackageName name) = Option.none)
    (hnp : jsLookup deps.peerDependencies (extractPackageName name) = Option.none) :
    reportIfMissing deps o ik "external" true name =
      if o.allowDevDeps then Verdict.allow
      else Verdict.report ("'" ++ extractPackageName name ++
        "' should be listed in the project's dependencies, not devDependencies.") := by
  cases hA : o.allowDevDeps <;>
    simp [reportIfMissing, devDepErrorMessage, hik, hdev, hnd, hno, hnp, hA]

/-- Witness for C2: `jest`, listed only in `devDependencies`, is reported
with the dev-specific message when dev imports are disallowed. -/
theorem dev_only_dependency_policy_witness :
    reportIfMissing devOnlyDeps ⟨false, true, true⟩ Option.none "external" true "jest" =
      Verdict.report "'jest' should be listed in the project's dependencies, not devDependencies." := by
  have h := dev_only_dependency_policy devOnlyDeps ⟨false, true, true⟩ Option.none "jest"
    (by decide) (by decide) (by decide) (by decide) (by decide)
  simpa using h

/-- C3: a package name present only in `optionalDependencies` is allowed
exactly when `allowOptDeps` is true and otherwise reported with the
optional-specific message; a package name present only in
`peerDependencies`, with peer imports disallowed, is reported with the
generic missing message, never a peer-specific one. -/
theorem optional_and_peer_only_policy
    (deps : DepFields) (o : DepsOptions) (ik : Option String) (name : String)
    (hik : ik ≠ some "type") :
    ((jsLookup deps.optionalDependencies (extractPackageName name)).isSome = true →
      jsLookup deps.dependencies (extractPackageName name) = Option.none →
      jsLookup deps.devDependencies (extractPackageName name) = Option.none →
      jsLookup deps.peerDependencies (extractPackageName name) = Option.none →
      reportIfMissing deps o ik "external" true name =
        if o.allowOptDeps then Verdict.allow
        else Verdict.report ("'" ++ extractPackageName name ++
          "' should be listed in the project's dependencies, " ++
          "not optionalDependencies.")) ∧
    ((jsLookup deps.peerDependencies (extractPackageName name)).isSome = true →
      jsLookup deps.dependencies (extractPackageName name) = Option.none →
      jsLookup deps.devDependencies (extractPackageName name) = Option.none →
      jsLookup deps.optionalDependencies (extractPackageName name) = Option.none →
      o.allowPeerDeps = false →
      reportIfMissing deps o ik "external" true name =
        Verdict.report ("'" ++ extractPackageName name ++
          "' should be listed in the project's dependencies. " ++
          "Run 'npm i -S " ++ extractPackageName name ++ "' to add it")) := by
  constructor
  · intro hopt hnd hndev hnp
    cases hA : o.allowOptDeps <;>
      simp [reportIfMissing, optDepErrorMessage, hik, hopt, hnd, hndev, hnp, hA]
  · intro hpeer hnd hndev hno hA
    simp [reportIfMissing, missingErrorMessage, hik, hpeer, hnd, hndev, hno, hA]

/-- Witness for C3: `fsevents` (optional-only, optional disallowed) gets
the optional-specific message; `react` (peer-only, peer disallowed) gets
the generic missing message. -/
theorem optional_and_peer_only_policy_witness :
    reportIfMissing optOnlyDeps ⟨true, false, true⟩ Option.none "external" true "fsevents" =
      Verdict.report ("'fsevents' should be listed in the project's dependencies, " ++
        "not optionalDependencies.") ∧
    reportIfMissing peerOnlyDeps ⟨true, true, false⟩ Option.none "external" true "react" =
      Verdict.report ("'react' should be listed in the project's dependencies. " ++
        "Run 'npm i -S react' to add it") := by
  constructor
  · have h := (optional_and_peer_only_policy optOnlyDeps ⟨true, false, true⟩ Option.none
      "fsevents" (by decide)).1 (by decide) (by decide) (by decide) (by decide)
    simpa using h
  · have h := (optional_and_peer_only_policy peerOnlyDeps ⟨true, true, false⟩ Option.none
      "react" (by decide)).2 (by decide) (by decide) (by decide) (by decide) (by decide)
    simpa using h

theorem splitSlash_append (a b : List Char) (h : '/' ∉ a) :
    splitSlash (a ++ '/' :: b) = a :: splitSlash b := by
  induction a with
  | nil => simp [splitSlash]
  | cons c t ih =>
    have hc : ¬(c = '/') := fun e => h (e ▸ List.mem_cons_self c t)
    have ht : '/' ∉ t := fun m => h (List.mem_cons_of_mem _ m)
    simp only [List.cons_append, splitSlash, if_neg hc]
    rw [show t.append ('/' :: b) = t ++ '/' :: b from rfl, ih ht]

theorem splitSlash_no_slash (a : List Char) (h : '/' ∉ a) : splitSlash a = [a] := by
  induction a with
  | nil => rfl
  | cons c t ih =>
    have hc : ¬(c = '/') := fun e => h (e ▸ List.mem_cons_self c t)
    have ht : '/' ∉ t := fun m => h (List.mem_cons_of_mem _ m)
    simp only [splitSlash, if_neg hc, ih ht]

theorem reportIfMissing_extract_congr (deps : DepFields) (o : DepsOptions)
    (ik : Option String) (itr : String) (r : Bool) {n1 n2 : String}
    (h : extractPackageName n1 = extractPackageName n2) :
    reportIfMissing deps o ik itr r n1 = reportIfMissing deps o ik itr r n2 := by
  unfold reportIfMissing
  rw [h]

/-- C4: package-name extraction keeps the first two `'/'`-segments of a
scoped specifier and the first segment of an unscoped one, so a scoped
specifier with extra path segments classifies exactly like the bare scoped
package, and an unscoped specifier with a subpath exactly like the bare
package name, on any table and policy with identical type/external/resolve
status. -/
theorem package_name_extraction_segment_invariant
    (deps : DepFields) (o : DepsOptions) (ik : Option String) (itr : String) (r : Bool)
    (scope pkg deep sub : List Char)
    (hsAt : scope.head? = some '@') (hs : '/' ∉ scope) (hp : '/' ∉ pkg) :
    (extractPackageName (String.mk (scope ++ '/' :: (pkg ++ '/' :: deep))) =
        String.mk (scope ++ '/' :: pkg) ∧
      extractPackageName (String.mk (scope ++ '/' :: pkg)) =
        String.mk (scope ++ '/' :: pkg)) ∧
    reportIfMissing deps o ik itr r (String.mk (scope ++ '/' :: (pkg ++ '/' :: deep))) =
      reportIfMissing deps o ik itr r (String.mk (scope ++ '/' :: pkg)) ∧
    (pkg.head? ≠ some '@' →
      extractPackageName (String.mk (pkg ++ '/' :: sub)) = String.mk pkg ∧
      reportIfMissing deps o ik itr r (String.mk (pkg ++ '/' :: sub)) =
        reportIfMissing deps o ik itr r (String.mk pkg)) := by
  have e1 : extractPackageName (String.mk (scope ++ '/' :: (pkg ++ '/' :: deep))) =
      String.mk (scope ++ '/' :: pkg) := by
    unfold extractPackageName
    rw [show (String.mk (scope ++ '/' :: (pkg ++ '/' :: deep))).data =
        scope ++ '/' :: (pkg ++ '/' :: deep) from rfl]
    rw [splitSlash_append _ _ hs, splitSlash_append _ _ hp]
    simp [extractPackageNameSegs, hsAt, joinSlash]
  have e2 : extractPackageName (String.mk (scope ++ '/' :: pkg)) =
      String.mk (scope ++ '/' :: pkg) := by
    unfold extractPackageName
    rw [show (String.mk (scope ++ '/' :: pkg)).data = scope ++ '/' :: pkg from rfl]
    rw [splitSlash_append _ _ hs, splitSlash_no_slash _ hp]
    simp [extractPackageNameSegs, hsAt, joinSlash]
  refine ⟨⟨e1, e2⟩, reportIfMissing_extract_congr deps o ik itr r (e1.trans e2.symm), ?_⟩
  intro hpAt
  have e3 : extractPackageName (String.mk (pkg ++ '/' :: sub)) = String.mk pkg := by
    unfold extractPackageName
    rw [show (String.mk (pkg ++ '/' :: sub)).data = pkg ++ '/' :: sub from rfl]
    rw [splitSlash_append _ _ hp]
    simp [extractPackageNameSegs, hpAt]
  have e4 : extractPackageName (String.mk pkg) = String.mk pkg := by
    unfold extractPackageName
    rw [show (String.mk pkg).data = pkg from rfl]
    rw [splitSlash_no_slash _ hp]
    simp [extractPackageNameSegs, hpAt]
  exact ⟨e3, reportIfMissing_extract_congr deps o ik itr r (e3.trans e4.symm)⟩

/-- Witness for C4 at `@scope/pkg/deep/path` vs `@scope/pkg` and `pkg/sub`
vs `pkg`. -/
theorem package_name_extraction_segment_invariant_witness :
    reportIfMissing sampleDeps ⟨true, true, true⟩ Option.none "external" true
        "@scope/pkg/deep/path" =
      reportIfMissing sampleDeps ⟨true, true, true⟩ Option.none "external" true "@scope/pkg" ∧
    reportIfMissing sampleDeps ⟨true, true, true⟩ Option.none "external" true "pkg/sub" =
      reportIfMissing sampleDeps ⟨true, true, true⟩ Option.none "external" true "pkg" := by
  have h := package_name_extraction_segment_invariant sampleDeps ⟨true, true, true⟩
    Option.none "external" true "@scope".data "pkg".data "deep/path".data "sub".data
    (by decide) (by decide) (by decide)
  obtain ⟨-, h2, h3⟩ := h
  exact ⟨h2, (h3 (by decide)).2⟩

theorem jsLookup_append (a b : JsObj) (k : String) :
    jsLookup (a ++ b) k = (jsLookup a k).or (jsLookup b k) := by
  induction a with
  | nil => simp [jsLookup, Option.or]
  | cons p rest ih =>
    obtain ⟨k', v⟩ := p
    by_cases hk : k' = k
    · simp [jsLookup, hk, Option.or]
    · simp [jsLookup, hk, ih]

theorem isSome_option_or (x y : Option String) :
    (x.or y).isSome = (x.isSome || y.isSome) := by
  cases x <;> simp [Option.or]

theorem foldl_assignDeps_presence (f : DepFields → JsObj)
    (hf : ∀ a b, f (assignDeps a b) = f b ++ f a)
    (ds : List DepFields) (init : DepFields) (k : String)
    (h : (jsLookup (f init) k).isSome = true ∨
      ∃ d ∈ ds, (jsLookup (f d) k).isSome = true) :
    (jsLookup (f (ds.foldl assignDeps init)) k).isSome = true := by
  induction ds generalizing init with
  | nil =>
    rcases h with h | ⟨d, hd, _⟩
    · simpa using h
    · simp at hd
  | cons d ds ih =>
    rw [List.foldl_cons]
    apply ih
    rcases h with h | ⟨d', hd', hsome⟩
    · left
      rw [hf, jsLookup_append, isSome_option_or, h, Bool.or_true]
    · rcases List.mem_cons.mp hd' with rfl | hmem
      · left
        rw [hf, jsLookup_append, isSome_option_or, hsome, Bool.true_or]
      · exact Or.inr ⟨d', hmem, hsome⟩

/-- C6: merging manifests is additive per category — a key present in the
initial table or contributed by any merged table stays present in every
category after the whole fold; on collision the last-merged table's value
survives; and a runtime dependency present in either of two merged
manifests makes the classifier return `allow`. -/
theorem manifest_merge_additive
    (ds : List DepFields) (init d1 d2 : DepFields) (k name : String)
    (o : DepsOptions) (ik : Option String)
    (hik : ik ≠ some "type")
    (hname : extractPackageName name = k) :
    (((jsLookup init.dependencies k).isSome = true ∨
        ∃ d ∈ ds, (jsLookup d.dependencies k).isSome = true) →
      (jsLookup (ds.foldl assignDeps init).dependencies k).isSome = true) ∧
    (((jsLookup init.devDependencies k).isSome = true ∨
        ∃ d ∈ ds, (jsLookup d.devDependencies k).isSome = true) →
      (jsLookup (ds.foldl assignDeps init).devDependencies k).isSome = true) ∧
    (((jsLookup init.optionalDependencies k).isSome = true ∨
        ∃ d ∈ ds, (jsLookup d.optionalDependencies k).isSome = true) →
      (jsLookup (ds.foldl assignDeps init).optionalDependencies k).isSome = true) ∧
    (((jsLookup init.peerDependencies k).isSome = true ∨
        ∃ d ∈ ds, (jsLookup d.peerDependencies k).isSome = true) →
      (jsLookup (ds.foldl assignDeps init).peerDependencies k).isSome = true) ∧
    ((jsLookup d2.dependencies k).isSome = true →
      jsLookup (assignDeps (assignDeps init d1) d2).dependencies k =
        jsLookup d2.dependencies k) ∧
    (((jsLookup d1.dependencies k).isSome = true ∨
        (jsLookup d2.dependencies k).isSome = true) →
      reportIfMissing (assignDeps (assignDeps init d1) d2) o ik "external" true name =
        Verdict.allow) := by
  refine ⟨?_, ?_, ?_, ?_, ?_, ?_⟩
  · exact fun h => foldl_assignDeps_presence DepFields.dependencies (fun _ _ => rfl) ds init k h
  · exact fun h => foldl_assignDeps_presence DepFields.devDependencies (fun _ _ => rfl) ds init k h
  · exact fun h =>
      foldl_assignDeps_presence DepFields.optionalDependencies (fun _ _ => rfl) ds init k h
  · exact fun h => foldl_assignDeps_presence DepFields.peerDependencies (fun _ _ => rfl) ds init k h
  · intro h
    rw [show (assignDeps (assignDeps init d1) d2).dependencies =
        d2.dependencies ++ (d1.dependencies ++ init.dependencies) from rfl]
    rw [jsLookup_append]
    obtain ⟨v, hv⟩ := Option.isSome_iff_exists.mp h
    simp [hv, Option.or]
  · intro h
    have hpres : (jsLookup (assignDeps (assignDeps init d1) d2).dependencies
        (extractPackageName name)).isSome = true := by
      rw [hname]
      rw [show (assignDeps (assignDeps init d1) d2).dependencies =
          d2.dependencies ++ (d1.dependencies ++ init.dependencies) from rfl]
      rw [jsLookup_append, jsLookup_append, isSome_option_or, isSome_option_or]
      rcases h with h | h
      · rw [h]
        simp
      · rw [h]
        simp
    simp [reportIfMissing, hik, hpres]

/-- Witness for C6: `left-pad`, a runtime dependency of the first of two
merged manifests only, is present after the fold and classified `allow`
with every policy flag off. -/
theorem manifest_merge_additive_witness :
    (jsLookup (([leftPadDeps, sampleDeps] : List DepFields).foldl assignDeps
      devOnlyDeps).dependencies "left-pad").isSome = true ∧
    reportIfMissing (assignDeps (assignDeps devOnlyDeps leftPadDeps) sampleDeps)
      ⟨false, false, false⟩ Option.none "external" true "left-pad" = Verdict.allow := by
  have h := manifest_merge_additive [leftPadDeps, sampleDeps] devOnlyDeps leftPadDeps
    sampleDeps "left-pad" "left-pad" ⟨false, false, false⟩ Option.none (by decide) (by decide)
  exact ⟨h.1 (Or.inr ⟨leftPadDeps, by simp, by decide⟩), h.2.2.2.2.2 (Or.inl (by decide))⟩

theorem getDepsLoop_dedup (env : Env) (dir : String) (l1 l2 : List String) :
    ∀ (files : List String) (acc : DepFields),
      (pkgFilePath dir ∈ files ∨ dir ∈ l1) →
      getDepsLoop env files acc (l1 ++ dir :: l2) =
        getDepsLoop env files acc (l1 ++ l2) := by
  induction l1 with
  | nil =>
    intro files acc h
    rcases h with h | h
    · simp [getDepsLoop, h]
    · simp at h
  | cons a l1 ih =>
    intro files acc h
    simp only [List.cons_append, getDepsLoop]
    by_cases ha : pkgFilePath a ∈ files
    · rw [if_pos ha, if_pos ha]
      apply ih
      rcases h with h | h
      · exact Or.inl h
      · rcases List.mem_cons.mp h with rfl | hm
        · exact Or.inl ha
        · exact Or.inr hm
    · rw [if_neg ha, if_neg ha]
      cases hr : env.readFile (pkgFilePath a) with
      | error e => rfl
      | ok pkg =>
        apply ih
        rcases h with h | h
        · exact Or.inl (List.mem_append_left _ h)
        · rcases List.mem_cons.mp h with rfl | hm
          · exact Or.inl (List.mem_append_right _ (List.mem_singleton.mpr rfl))
          · exact Or.inr hm

/-- C7: a configured directory whose manifest path is the nearest-ancestor
manifest's path, or which already occurred earlier in the configured list,
contributes nothing — `getDependencies` gives the same table and the same
diagnostics as without that entry. -/
theorem manifest_consulted_once
    (env : Env) (cp : String) (pkg : Pkg) (l1 l2 : List String) (dir : String)
    (hclosest : env.closest = Except.ok (cp, pkg))
    (h : pkgFilePath dir = cp ∨ dir ∈ l1) :
    getDependencies env (l1 ++ dir :: l2) = getDependencies env (l1 ++ l2) := by
  have hd := getDepsLoop_dedup env dir l1 l2 [cp] (extractDepFields pkg) (by
    rcases h with h | h
    · exact Or.inl (by simp [h])
    · exact Or.inr h)
  simp only [getDependencies, hclosest]
  rw [hd]

/-- Witness for C7: configuring the nearest manifest's own directory as
`packageDir` changes nothing. -/
theorem manifest_consulted_once_witness :
    getDependencies sampleEnv ["/other", "/proj"] = getDependencies sampleEnv ["/other"] :=
  manifest_consulted_once sampleEnv "/proj/package.json" samplePkg ["/other"] [] "/proj"
    rfl (Or.inl (by decide))

/-- C8: the `catch` block of `getDependencies` maps an `ENOENT` error to the
fixed not-found message, a `JSONError`/`SyntaxError` to the parse message
carrying the error's detail, and anything else to the error's own message —
always as a single diagnostic at line 0, column 0 — and both a failing
nearest-manifest lookup and a failing configured-directory read surface
exactly that diagnostic with no table. -/
theorem manifest_failure_diagnostics
    (env : Env) (pd : List String) (e : JsError) :
    ((e.code = some "ENOENT" →
        catchReport e = ⟨"The package.json file could not be found.", 0, 0⟩) ∧
      (e.code ≠ some "ENOENT" → (e.name = "JSONError" ∨ e.isSyntaxError = true) →
        catchReport e =
          ⟨"The package.json file could not be parsed: " ++ e.message, 0, 0⟩) ∧
      (e.code ≠ some "ENOENT" → e.name ≠ "JSONError" → e.isSyntaxError = false →
        catchReport e = ⟨e.message, 0, 0⟩)) ∧
    (env.closest = Except.error e →
      getDependencies env pd = (Option.none, [catchReport e])) ∧
    (∀ cp pkg, env.closest = Except.ok (cp, pkg) →
      getDepsLoop env [cp] (extractDepFields pkg) pd = Except.error e →
      getDependencies env pd = (Option.none, [catchReport e])) := by
  refine ⟨⟨?_, ?_, ?_⟩, ?_, ?_⟩
  · intro h
    simp [catchReport, h]
  · intro h1 h2
    rcases h2 with h2 | h2 <;> simp [catchReport, h1, h2]
  · intro h1 h2 h3
    simp [catchReport, h1, h2, h3]
  · intro h
    simp [getDependencies, h]
  · intro cp pkg hclosest hloop
    simp [getDependencies, hclosest, hloop]

/-- Witness for C8: a missing manifest yields the not-found diagnostic and
a malformed one the parse diagnostic, both at line 0, column 0. -/
theorem manifest_failure_diagnostics_witness :
    getDependencies noManifestEnv [] =
      (Option.none, [⟨"The package.json file could not be found.", 0, 0⟩]) ∧
    getDependencies badJsonEnv [] =
      (Option.none,
        [⟨"The package.json file could not be parsed: Unexpected end of JSON input",
          0, 0⟩]) := by
  constructor
  · have h := manifest_failure_diagnostics noManifestEnv [] notFoundErr
    rw [h.2.1 rfl, h.1.1 (by decide)]
  · have h := manifest_failure_diagnostics badJsonEnv [] parseErr
    rw [h.2.1 rfl, h.1.2.1 (by decide) (Or.inl rfl)]
    rfl

/-- C9: when `getDependencies` yields no table, `runRule` classifies and
reports no import at all — its output is exactly the manifest-level
diagnostics; a successfully read but entirely empty table yields no
diagnostic whatsoever, while either kind of acquisition failure yields
exactly one. -/
theorem no_table_skips_imports
    (env : Env) (cwd : String) (opts : RuleOptions) (filename : String)
    (imports : List ImportSite) :
    ((getDependencies env opts.packageDir).1 = Option.none →
      runRule env cwd opts filename imports = (getDependencies env opts.packageDir).2) ∧
    (∀ cp pkg deps, env.closest = Except.ok (cp, pkg) →
      getDepsLoop env [cp] (extractDepFields pkg) opts.packageDir = Except.ok deps →
      (hasKeys deps.dependencies || hasKeys deps.devDependencies
        || hasKeys deps.optionalDependencies || hasKeys deps.peerDependencies) = false →
      getDependencies env opts.packageDir = (Option.none, []) ∧
      runRule env cwd opts filename imports = []) ∧
    (∀ e, env.closest = Except.error e →
      ((getDependencies env opts.packageDir).2).length = 1) ∧
    (∀ cp pkg e, env.closest = Except.ok (cp, pkg) →
      getDepsLoop env [cp] (extractDepFields pkg) opts.packageDir = Except.error e →
      ((getDependencies env opts.packageDir).2).length = 1) := by
  have hmain : (getDependencies env opts.packageDir).1 = Option.none →
      runRule env cwd opts filename imports = (getDependencies env opts.packageDir).2 := by
    rcases hEq : getDependencies env opts.packageDir with ⟨o, ds⟩
    intro h
    simp only at h
    subst h
    simp only [runRule, hEq]
  refine ⟨hmain, ?_, ?_, ?_⟩
  · intro cp pkg deps hclosest hloop hempty
    have hdeps : getDependencies env opts.packageDir = (Option.none, []) := by
      simp [getDependencies, hclosest, hloop, hempty]
    exact ⟨hdeps, by rw [hmain (by rw [hdeps]), hdeps]⟩
  · intro e hclosest
    simp [getDependencies, hclosest]
  · intro cp pkg e hclosest hloop
    simp [getDependencies, hclosest, hloop]

/-- Witness for C9: an empty manifest silently disables the rule even with
a reportable import in the file, and a missing manifest yields exactly one
diagnostic. -/
theorem no_table_skips_imports_witness :
    (getDependencies emptyManifestEnv [] = (Option.none, []) ∧
      runRule emptyManifestEnv "/proj" defaultOpts "/proj/a.js" [sampleImport] = []) ∧
    ((getDependencies noManifestEnv []).2).length = 1 := by
  constructor
  · exact (no_table_skips_imports emptyManifestEnv "/proj" defaultOpts "/proj/a.js"
      [sampleImport]).2.1 "/proj/package.json" emptyPkg (extractDepFields emptyPkg)
      rfl rfl (by decide)
  · exact (no_table_skips_imports noManifestEnv "/proj" defaultOpts "/proj/a.js"
      [sampleImport]).2.2.1 notFoundErr rfl

/-- C10: `testConfig` returns a boolean or absent value as-is, absent being
default-allow; a glob list yields true exactly when some pattern matches
the filename directly or joined onto the working directory; and with
pattern list `["test/**"]` on `devDependencies`, the rule allows a
dev-only import from `test/unit/foo.js` but reports it from `src/foo.js`
with the dev-specific message. -/
theorem glob_policy_evaluator
    (cwd filename : String) (ps : List String) (b bb : Bool) :
    testConfig cwd Config.none filename = Option.none ∧
    testConfig cwd Config.none filename ≠ some false ∧
    testConfig cwd (Config.bool bb) filename = some bb ∧
    (testConfig cwd (Config.globs ps) filename = some b →
      (b = true ↔ ∃ c ∈ ps, minimatch filename c = true ∨
        minimatch filename (pathJoin cwd c) = true)) ∧
    runRule devProjEnv "/proj" globOpts "test/unit/foo.js" [jestImport] = [] ∧
    runRule devProjEnv "/proj" globOpts "src/foo.js" [jestImport] =
      [⟨"'jest' should be listed in the project's dependencies, not devDependencies.",
        1, 0⟩] := by
  refine ⟨rfl, by simp [testConfig], rfl, ?_, by decide, by decide⟩
  intro h
  simp only [testConfig, Option.some.injEq] at h
  subst h
  simp [List.any_eq_true, Bool.or_eq_true]

/-- Witness for C10's glob clause at the pattern list `["test/**"]`. -/
theorem glob_policy_evaluator_witness :
    (true = true ↔ ∃ c ∈ (["test/**"] : List String),
      minimatch "test/unit/foo.js" c = true ∨
      minimatch "test/unit/foo.js" (pathJoin "/proj" c) = true) := by
  have h := glob_policy_evaluator "/proj" "test/unit/foo.js" ["test/**"] true true
  exact h.2.2.2.1 (by decide)

/-- C5: a type-only import, a specifier the external classifier does not
deem external, or a specifier that fails to resolve makes `reportIfMissing`
return `skip` — never a report — whatever the table and policy are. -/
theorem type_or_nonexternal_or_unresolved_skips
    (deps : DepFields) (o : DepsOptions) (ik : Option String)
    (importTypeResult : String) (resolved : Bool) (name : String)
    (h : ik = some "type" ∨ importTypeResult ≠ "external" ∨ resolved = false) :
    reportIfMissing deps o ik importTypeResult resolved name = Verdict.skip ∧
    ∀ m, reportIfMissing deps o ik importTypeResult resolved name ≠ Verdict.report m := by
  have hskip : reportIfMissing deps o ik importTypeResult resolved name = Verdict.skip := by
    rcases h with h | h | h
    · simp [reportIfMissing, h]
    · rcases Decidable.em (ik = some "type") with hik | hik <;>
        simp [reportIfMissing, hik, h]
    · rcases Decidable.em (ik = some "type") with hik | hik <;>
        rcases Decidable.em (importTypeResult = "external") with hit | hit <;>
          simp [reportIfMissing, hik, hit, h]
  exact ⟨hskip, fun m => by simp [hskip]⟩

/-- Witness for C5: a type-only import of an entirely unlisted package is
skipped. -/
theorem type_or_nonexternal_or_unresolved_skips_witness :
    reportIfMissing sampleDeps ⟨true, true, true⟩ (some "type") "external" true "left-pad" =
      Verdict.skip ∧
    ∀ m, reportIfMissing sampleDeps ⟨true, true, true⟩ (some "type") "external" true "left-pad" ≠
      Verdict.report m :=
  type_or_nonexternal_or_unresolved_skips sampleDeps ⟨true, true, true⟩ (some "type")
    "external" true "left-pad" (Or.inl rfl)
